import Mathlib

/-!
# libzim public object model: entries, redirects, result cursors, errors

A shallow embedding of the headers `zim/error.h`, `zim/entry.h`,
`zim/search_iterator.h` and `zim/suggestion_iterator.h`.

* C++ exceptions are values; a function that may throw returns `Except`.
* `std::string` is `String`, `entry_index_type` is `Nat`.
* Inline bodies present in the headers are translated literally.  Member
  functions that the headers only declare are modelled from the written
  specification and are marked as such in their doc comments.
-/

namespace zim

/-! ## zim/error.h -/

/-- The exception classes declared in `error.h`, together with the three
standard classes they derive from. -/
inductive ErrorClass
  | std_exception
  | std_logic_error
  | std_runtime_error
  | ZimFileFormatError
  | InvalidType
  | EntryNotFound
  | CreatorError
  | InvalidEntry
  | IncoherentImplementationError
  | AsyncError
  | CreatorStateError
  deriving DecidableEq, Repr

/-- The direct public base class written after the colon of each class
declaration (`class InvalidType: public std::logic_error`, ...). -/
def ErrorClass.base : ErrorClass → Option ErrorClass
  | .std_exception => none
  | .std_logic_error => some .std_exception
  | .std_runtime_error => some .std_exception
  | .ZimFileFormatError => some .std_runtime_error
  | .InvalidType => some .std_logic_error
  | .EntryNotFound => some .std_runtime_error
  | .CreatorError => some .std_runtime_error
  | .InvalidEntry => some .CreatorError
  | .IncoherentImplementationError => some .CreatorError
  | .AsyncError => some .CreatorError
  | .CreatorStateError => some .CreatorError

/-- The class itself followed by its chain of base classes, walking `base`
at most `depth` times. -/
def ErrorClass.lineage : Nat → ErrorClass → List ErrorClass
  | 0, c => [c]
  | depth + 1, c =>
    match c.base with
    | none => [c]
    | some b => c :: lineage depth b

/-- Subclass test `c` is-a `d`: `d` is `c` or one of its (transitive) public
bases.  Eleven classes are declared, so eleven steps reach every base. -/
def ErrorClass.isA (c d : ErrorClass) : Bool :=
  (ErrorClass.lineage 11 c).contains d

/-- A `catch (const handler&)` clause catches a thrown object of dynamic class
`thrown` exactly when `thrown` is-a `handler`. -/
def catches (handler thrown : ErrorClass) : Bool :=
  thrown.isA handler

/-- An exception object of one of the classes of `error.h`: its dynamic class
and the message kept by the `std::logic_error` / `std::runtime_error` base,
which is what `what()` returns. -/
structure ZimError where
  cls : ErrorClass
  what : String
  deriving DecidableEq, Repr

/-- Constructor `ZimFileFormatError(msg) : std::runtime_error(msg)`. -/
def ZimFileFormatError (msg : String) : ZimError := ⟨.ZimFileFormatError, msg⟩

/-- Constructor `InvalidType(msg) : std::logic_error(msg)`. -/
def InvalidType (msg : String) : ZimError := ⟨.InvalidType, msg⟩

/-- Constructor `EntryNotFound(msg) : std::runtime_error(msg)`. -/
def EntryNotFound (msg : String) : ZimError := ⟨.EntryNotFound, msg⟩

/-- Constructor `CreatorError(message) : std::runtime_error(message)`; the
first argument is the most derived class being constructed. -/
def CreatorError (dyn : ErrorClass) (message : String) : ZimError := ⟨dyn, message⟩

/-- Constructor `InvalidEntry(message) : CreatorError(message)`. -/
def InvalidEntry (message : String) : ZimError := CreatorError .InvalidEntry message

/-- Constructor `IncoherentImplementationError(message) : CreatorError(message)`. -/
def IncoherentImplementationError (message : String) : ZimError :=
  CreatorError .IncoherentImplementationError message

/-- Constructor `CreatorStateError() : CreatorError("Creator is in error state.")`. -/
def CreatorStateError : ZimError :=
  CreatorError .CreatorStateError "Creator is in error state."

/-- What a non-null `std::exception_ptr` refers to: an in-flight C++
exception.  Either it derives from `std::exception`, and then a handler sees its
dynamic type name `typeid(e).name()` and its message `e.what()`, or it is any
other thrown value (an `int`, a user struct, ...), identified here by a tag. -/
inductive CppException
  | stdException (typeName : String) (what : String)
  | other (tag : Nat)
  deriving DecidableEq, Repr

/-- Library function `std::rethrow_exception(p)`: never returns, throws the
exception `p` refers to.  (A null `p` is outside its precondition.) -/
def rethrow_exception (p : CppException) : Except CppException Empty :=
  .error p

/-- Static member `AsyncError::buildErrorMessage`:
```
try { std::rethrow_exception(exception); }
catch (const std::exception& e) {
  ss << "Asynchronous error: "; ss << typeid(e).name() << std::endl; ss << e.what();
  return ss.str();
} catch (...) { return "Unknown asynchronous exception"; }
```
-/
def buildErrorMessage (exception : CppException) : String :=
  match rethrow_exception exception with
  | .error (.stdException typeName what) =>
    "Asynchronous error: " ++ typeName ++ "\n" ++ what
  | .error (.other _) => "Unknown asynchronous exception"

/-- An object of class `AsyncError`: the `CreatorError` base sub-object (class
and message) and the private member `m_exception`. -/
structure AsyncError where
  toCreatorError : ZimError
  m_exception : CppException
  deriving DecidableEq, Repr

/-- Constructor
`AsyncError(exception) : CreatorError(buildErrorMessage(exception)), m_exception(exception)`. -/
def AsyncError.ctor (exception : CppException) : AsyncError :=
  { toCreatorError := CreatorError .AsyncError (buildErrorMessage exception)
    m_exception := exception }

/-- Inherited `what()` of an `AsyncError`. -/
def AsyncError.what (self : AsyncError) : String :=
  self.toCreatorError.what

/-- Member `[[noreturn]] void rethrow() const { std::rethrow_exception(m_exception); }`. -/
def AsyncError.rethrow (self : AsyncError) : Except CppException Empty :=
  rethrow_exception self.m_exception

/-- A `const` member call in state-passing style: the object after the call
together with the outcome of the call. -/
def AsyncError.whatCall (self : AsyncError) : AsyncError × String :=
  (self, self.what)

/-! ## zim/suggestion_iterator.h : SuggestionItem -/

/-- Class `SuggestionItem` with its three private `std::string` members. -/
structure SuggestionItem where
  title : String
  path : String
  snippet : String
  deriving DecidableEq, Repr

/-- Member `std::string::empty()`: the string has size zero. -/
def stdStringEmpty (s : String) : Bool :=
  s.length == 0

/-- Constructor `SuggestionItem(title, path, snippet)`, members initialised as
`title(title), path(path), snippet(snippet)`. -/
def SuggestionItem.ctor (title path snippet : String) : SuggestionItem :=
  { title := title, path := path, snippet := snippet }

/-- The two-argument call `SuggestionItem(title, path)`, which takes the
default argument `snippet = ""`. -/
def SuggestionItem.ctor2 (title path : String) : SuggestionItem :=
  SuggestionItem.ctor title path ""

/-- Member `getTitle() const { return title; }`. -/
def SuggestionItem.getTitle (self : SuggestionItem) : String := self.title

/-- Member `getPath() const { return path; }`. -/
def SuggestionItem.getPath (self : SuggestionItem) : String := self.path

/-- Member `getSnippet() const { return snippet; }`. -/
def SuggestionItem.getSnippet (self : SuggestionItem) : String := self.snippet

/-- Member `hasSnippet() const { return !snippet.empty(); }`. -/
def SuggestionItem.hasSnippet (self : SuggestionItem) : Bool :=
  !stdStringEmpty self.snippet

/-- The four public accessors of `SuggestionItem`. -/
inductive SuggestionAccessor
  | getTitle
  | getPath
  | getSnippet
  | hasSnippet
  deriving DecidableEq, Repr

/-- The value returned by an accessor call. -/
inductive AccessorValue
  | str (s : String)
  | bool (b : Bool)
  deriving DecidableEq, Repr

/-- One accessor call in state-passing style: the item after the call (every
accessor is a `const` member returning by value, so no member is written) and
the value returned. -/
def SuggestionItem.call (self : SuggestionItem) :
    SuggestionAccessor → SuggestionItem × AccessorValue
  | .getTitle => (self, .str self.getTitle)
  | .getPath => (self, .str self.getPath)
  | .getSnippet => (self, .str self.getSnippet)
  | .hasSnippet => (self, .bool self.hasSnippet)

/-- A sequence of accessor calls made one after the other on the same object:
the final object state and the values returned, in call order. -/
def SuggestionItem.callAll (self : SuggestionItem) :
    List SuggestionAccessor → SuggestionItem × List AccessorValue
  | [] => (self, [])
  | a :: rest =>
    let r := self.call a
    let rs := SuggestionItem.callAll r.1 rest
    (rs.1, r.2 :: rs.2)

/-! ## zim/entry.h

`entry.h` declares the members of `Entry` and documents them; `Item`, `Dirent`
and `FileImpl` are only forward-declared there.  The archive side is therefore
a parameter of the model, and the member bodies follow the specification. -/

/-- Modelled from the spec: the directory-entry record served by the Dirent
store (`class Dirent` is only forward-declared in `entry.h`).  Attributes:
is-redirect flag, target index (meaningful only for a redirect), path, title. -/
structure Dirent where
  isRedirect : Bool
  targetIndex : Nat
  path : String
  title : String
  deriving DecidableEq, Repr

/-- Modelled from the spec: the archive file layer (`class FileImpl` is only
forward-declared in `entry.h`).  It holds the published Dirent records, indexed
from zero, and associates a content item with an index; `Item` itself is left
abstract. -/
structure FileImpl (Item : Type) where
  dirents : List Dirent
  item : Nat → Item

/-- Modelled from the spec: `entryCount() -> integer`, the number of records of
the store, used as the redirect-chain hop bound. -/
def FileImpl.entryCount {Item : Type} (f : FileImpl Item) : Nat :=
  f.dirents.length

/-- Modelled from the spec: `getDirent(index)`, total over valid indices; fails
with the Format-error kind when the index is out of range. -/
def FileImpl.getDirent {Item : Type} (f : FileImpl Item) (index : Nat) :
    Except ZimError Dirent :=
  match f.dirents[index]? with
  | some d => .ok d
  | none => .error (ZimFileFormatError "entry index out of range")

/-- Class `Entry`: the shared archive handle `m_file` and the index `m_idx`.
The cached `m_dirent` is a function of these two and is recomputed on demand. -/
structure Entry (Item : Type) where
  m_file : FileImpl Item
  m_idx : Nat

/-- Inline member `getIndex() const { return m_idx; }`. -/
def Entry.getIndex {Item : Type} (self : Entry Item) : Nat :=
  self.m_idx

/-- The Dirent record of the entry, fetched from the store by index. -/
def Entry.dirent {Item : Type} (self : Entry Item) : Except ZimError Dirent :=
  self.m_file.getDirent self.m_idx

/-- Modelled from the spec: `Entry::isRedirect()` (declared in `entry.h`, body
not in the headers) returns whether the underlying Dirent is a redirect. -/
def Entry.isRedirect {Item : Type} (self : Entry Item) : Except ZimError Bool :=
  match self.dirent with
  | .error e => .error e
  | .ok d => .ok d.isRedirect

/-- Modelled from the spec: `Entry::getRedirectEntryIndex()` (declared in
`entry.h`, body not in the headers) requires the entry to be a redirect and
returns the raw index one hop away; fails with `InvalidType` if the entry is
not a redirect. -/
def Entry.getRedirectEntryIndex {Item : Type} (self : Entry Item) : Except ZimError Nat :=
  match self.dirent with
  | .error e => .error e
  | .ok d =>
    if d.isRedirect then .ok d.targetIndex
    else .error (InvalidType "entry is not a redirect")

/-- Modelled from the spec: `Entry::getRedirectEntry()` (declared in `entry.h`,
body not in the headers) requires the entry to be a redirect and returns the
entry reached by following exactly one hop; fails with `InvalidType` if the
entry is not a redirect. -/
def Entry.getRedirectEntry {Item : Type} (self : Entry Item) :
    Except ZimError (Entry Item) :=
  match self.dirent with
  | .error e => .error e
  | .ok d =>
    if d.isRedirect then .ok { m_file := self.m_file, m_idx := d.targetIndex }
    else .error (InvalidType "entry is not a redirect")

/-- Modelled from the spec: the redirect-chain resolution algorithm (its body
is not in the headers).  Starting from the current index, while the current
Dirent is a redirect, move to its target index; stop at the first non-redirect
Dirent and return its associated item.  At most `budget` hops are made; a
further hop fails with a `ZimFileFormatError`.  The first component of the
result counts the hops that were made. -/
def resolveChain {Item : Type} (f : FileImpl Item) : Nat → Nat → Nat × Except ZimError Item
  | 0, cur =>
    match f.getDirent cur with
    | .error e => (0, .error e)
    | .ok d =>
      if d.isRedirect then (0, .error (ZimFileFormatError "redirect chain exceeds the hop bound"))
      else (0, .ok (f.item cur))
  | budget + 1, cur =>
    match f.getDirent cur with
    | .error e => (0, .error e)
    | .ok d =>
      if d.isRedirect then
        let r := resolveChain f budget d.targetIndex
        (r.1 + 1, r.2)
      else (0, .ok (f.item cur))

/-- Modelled from the spec: resolution from an entry, with `entryCount()` as
the hop bound. -/
def Entry.resolve {Item : Type} (self : Entry Item) : Nat × Except ZimError Item :=
  resolveChain self.m_file self.m_file.entryCount self.m_idx

/-- Modelled from the spec: `Entry::getItem(follow)` (declared in `entry.h`,
body not in the headers).  If the entry is not a redirect, returns its content
item; if it is a redirect and `follow` is false, fails with `InvalidType`; if
`follow` is true, resolves the full redirect chain and returns the terminal
item. -/
def Entry.getItem {Item : Type} (self : Entry Item) (follow : Bool) : Except ZimError Item :=
  match self.dirent with
  | .error e => .error e
  | .ok d =>
    if d.isRedirect then
      if follow then self.resolve.2
      else .error (InvalidType "cannot get item of a redirect without following")
    else .ok (self.m_file.item self.m_idx)

/-- Modelled from the spec: `Entry::getRedirect()` (declared in `entry.h`, body
not in the headers) requires the entry to be a redirect, resolves the full
chain and returns the terminal item; fails with `InvalidType` if the entry is
not a redirect. -/
def Entry.getRedirect {Item : Type} (self : Entry Item) : Except ZimError Item :=
  match self.dirent with
  | .error e => .error e
  | .ok d =>
    if d.isRedirect then self.resolve.2
    else .error (InvalidType "entry is not a redirect")

/-- Number of hops made by redirect resolution from an entry. -/
def Entry.resolveHops {Item : Type} (self : Entry Item) : Nat :=
  self.resolve.1

/-- The class of the exception a call ended with, if it threw. -/
def thrownClass {α : Type} : Except ZimError α → Option ErrorClass
  | .error e => some e.cls
  | .ok _ => none

/-- One redirect hop in the store: the target index of the record at `i` when
that record exists and is a redirect. -/
def FileImpl.hop {Item : Type} (f : FileImpl Item) (i : Nat) : Option Nat :=
  match f.dirents[i]? with
  | some d => if d.isRedirect then some d.targetIndex else none
  | none => none

/-- Following exactly `k` one-hop redirects from index `i`; `none` when one of
the records on the way is missing or is not a redirect. -/
def FileImpl.walk {Item : Type} (f : FileImpl Item) : Nat → Nat → Option Nat
  | 0, i => some i
  | k + 1, i =>
    match f.hop i with
    | some j => FileImpl.walk f k j
    | none => none

/-- The record at `t` exists and is not a redirect. -/
def FileImpl.isTerminal {Item : Type} (f : FileImpl Item) (t : Nat) : Bool :=
  match f.dirents[t]? with
  | some d => !d.isRedirect
  | none => false

/-- The archive of the worked example: index 0 is `A`, a redirect to `B`;
index 1 is `B`, a redirect to `C`; index 2 is `C`, whose item is "hello". -/
def exampleChain : FileImpl String :=
  { dirents := [⟨true, 1, "A", "A"⟩, ⟨true, 2, "B", "B"⟩, ⟨false, 0, "C", "C"⟩]
    item := fun i => if i = 2 then "hello" else "" }

/-- A corrupt archive whose two records redirect to each other. -/
def exampleCycle : FileImpl String :=
  { dirents := [⟨true, 1, "A", "A"⟩, ⟨true, 0, "B", "B"⟩]
    item := fun _ => "" }

/-! ## zim/search_iterator.h and zim/suggestion_iterator.h : result cursors

Both headers declare the cursor members without bodies and forward-declare the
backend state (`InternalData`, `SuggestionInternalData`, `RangeIterator`). -/

end zim

namespace zim

/-! ## Auxiliary facts -/

theorem stdStringEmpty_iff (s : String) : stdStringEmpty s = true ↔ s = "" := by
  cases s with
  | mk cs =>
    cases cs with
    | nil => simp [stdStringEmpty]
    | cons c rest =>
      simp [stdStringEmpty, String.length]
      intro h
      have h2 := congrArg String.length h
      simp [String.length] at h2

theorem buildErrorMessage_ne_empty (e : CppException) : buildErrorMessage e ≠ "" := by
  intro h
  have hl := congrArg String.length h
  cases e with
  | stdException tn w =>
    simp [buildErrorMessage, rethrow_exception, String.length_append] at hl
    have : "Asynchronous error: ".length = 20 := by decide
    omega
  | other tag =>
    simp [buildErrorMessage, rethrow_exception] at hl
    revert hl
    decide

theorem callAll_const (it : SuggestionItem) (calls : List SuggestionAccessor) :
    (it.callAll calls).1 = it ∧
    (it.callAll calls).2 = calls.map (fun a => (it.call a).2) := by
  induction calls with
  | nil => simp [SuggestionItem.callAll]
  | cons a rest ih =>
    have h1 : (it.call a).1 = it := by cases a <;> rfl
    simp [SuggestionItem.callAll, h1, ih]

/-! ## Redirect walks in the Dirent store -/

theorem hop_eq_some_iff {Item : Type} (f : FileImpl Item) (i j : Nat) :
    f.hop i = some j ↔
      ∃ d, f.dirents[i]? = some d ∧ d.isRedirect = true ∧ d.targetIndex = j := by
  unfold FileImpl.hop
  cases hd : f.dirents[i]? with
  | none => simp
  | some d =>
    cases hr : d.isRedirect <;> simp [hr]

theorem isTerminal_iff {Item : Type} (f : FileImpl Item) (t : Nat) :
    f.isTerminal t = true ↔ ∃ d, f.dirents[t]? = some d ∧ d.isRedirect = false := by
  unfold FileImpl.isTerminal
  cases hd : f.dirents[t]? with
  | none => simp
  | some d => simp

theorem lt_entryCount_of_getElem {Item : Type} (f : FileImpl Item) (i : Nat) (d : Dirent)
    (h : f.dirents[i]? = some d) : i < f.entryCount := by
  unfold FileImpl.entryCount
  by_contra hge
  have hn : f.dirents[i]? = none := List.getElem?_eq_none (Nat.le_of_not_lt hge)
  rw [hn] at h
  cases h

theorem hop_terminal {Item : Type} (f : FileImpl Item) (t : Nat)
    (h : f.isTerminal t = true) : f.hop t = none := by
  obtain ⟨d, hd, hr⟩ := (isTerminal_iff f t).mp h
  simp [FileImpl.hop, hd, hr]

theorem walk_add {Item : Type} (f : FileImpl Item) (a b i : Nat) :
    f.walk (a + b) i = (f.walk a i).bind (f.walk b) := by
  induction a generalizing i with
  | zero => simp [FileImpl.walk]
  | succ a ih =>
    have e : a + 1 + b = (a + b) + 1 := by omega
    rw [e]
    simp only [FileImpl.walk]
    cases f.hop i with
    | none => rfl
    | some j => exact ih j

theorem walk_terminal_none {Item : Type} (f : FileImpl Item) (t m : Nat)
    (h : f.isTerminal t = true) (hm : 0 < m) : f.walk m t = none := by
  obtain ⟨m', rfl⟩ : ∃ m', m = m' + 1 := ⟨m - 1, by omega⟩
  simp [FileImpl.walk, hop_terminal f t h]

theorem walk_split {Item : Type} (f : FileImpl Item) (k j i t : Nat)
    (hw : f.walk k i = some t) (hj : j ≤ k) :
    ∃ x, f.walk j i = some x ∧ f.walk (k - j) x = some t := by
  have e : k = j + (k - j) := by omega
  rw [e, walk_add] at hw
  cases hx : f.walk j i with
  | none => rw [hx] at hw; cases hw
  | some x =>
    rw [hx] at hw
    exact ⟨x, rfl, hw⟩

theorem walk_node_lt {Item : Type} (f : FileImpl Item) (m x t : Nat)
    (hw : f.walk m x = some t) (ht : f.isTerminal t = true) : x < f.entryCount := by
  cases m with
  | zero =>
    simp [FileImpl.walk] at hw
    subst hw
    obtain ⟨d, hd, -⟩ := (isTerminal_iff f x).mp ht
    exact lt_entryCount_of_getElem f x d hd
  | succ m =>
    simp only [FileImpl.walk] at hw
    cases hh : f.hop x with
    | none => rw [hh] at hw; cases hw
    | some j =>
      obtain ⟨d, hd, -, -⟩ := (hop_eq_some_iff f x j).mp hh
      exact lt_entryCount_of_getElem f x d hd

/-- A redirect chain that reaches a non-redirect record visits pairwise
different records, so it makes fewer hops than the store has records. -/
theorem walk_length_lt {Item : Type} (f : FileImpl Item) (k i t : Nat)
    (hw : f.walk k i = some t) (ht : f.isTerminal t = true) : k < f.entryCount := by
  have hmaps : ∀ j ∈ Finset.range (k + 1),
      (f.walk j i).getD 0 ∈ Finset.range f.entryCount := by
    intro j hj
    have hjk : j ≤ k := by
      have := Finset.mem_range.mp hj
      omega
    obtain ⟨x, hx, hrest⟩ := walk_split f k j i t hw hjk
    rw [hx]
    exact Finset.mem_range.mpr (walk_node_lt f (k - j) x t hrest ht)
  have key : ∀ a b, a < b → b ≤ k → f.walk a i ≠ f.walk b i := by
    intro a b hab hbk heq
    obtain ⟨x, hx, hxa⟩ := walk_split f k a i t hw (by omega)
    obtain ⟨y, hy, hyb⟩ := walk_split f k b i t hw hbk
    rw [hx, hy] at heq
    have hxy : x = y := Option.some.inj heq
    subst hxy
    have e : k - a = (k - b) + (b - a) := by omega
    rw [e, walk_add, hyb] at hxa
    simp only [Option.bind] at hxa
    rw [walk_terminal_none f t (b - a) ht (by omega)] at hxa
    cases hxa
  have hinj : Set.InjOn (fun j => (f.walk j i).getD 0) (Finset.range (k + 1) : Set Nat) := by
    intro a ha b hb hab
    have hak : a ≤ k := by
      have := Finset.mem_range.mp (Finset.mem_coe.mp ha)
      omega
    have hbk : b ≤ k := by
      have := Finset.mem_range.mp (Finset.mem_coe.mp hb)
      omega
    obtain ⟨x, hx, -⟩ := walk_split f k a i t hw hak
    obtain ⟨y, hy, -⟩ := walk_split f k b i t hw hbk
    simp only [hx, hy, Option.getD] at hab
    have hsame : f.walk a i = f.walk b i := by rw [hx, hy, hab]
    rcases Nat.lt_trichotomy a b with h | h | h
    · exact absurd hsame (key a b h hbk)
    · exact h
    · exact absurd hsame.symm (key b a h hak)
  have hcard := Finset.card_le_card_of_injOn _ hmaps hinj
  simp only [Finset.card_range] at hcard
  omega

/-! ## Redirect resolution -/

theorem resolveChain_terminal {Item : Type} (f : FileImpl Item) (b t : Nat)
    (ht : f.isTerminal t = true) : resolveChain f b t = (0, Except.ok (f.item t)) := by
  obtain ⟨d, hd, hr⟩ := (isTerminal_iff f t).mp ht
  cases b <;> simp [resolveChain, FileImpl.getDirent, hd, hr]

theorem resolveChain_hop_zero {Item : Type} (f : FileImpl Item) (i j : Nat)
    (hh : f.hop i = some j) :
    resolveChain f 0 i
      = (0, Except.error (ZimFileFormatError "redirect chain exceeds the hop bound")) := by
  obtain ⟨d, hd, hr, -⟩ := (hop_eq_some_iff f i j).mp hh
  simp [resolveChain, FileImpl.getDirent, hd, hr]

theorem resolveChain_hop_succ {Item : Type} (f : FileImpl Item) (b i j : Nat)
    (hh : f.hop i = some j) :
    resolveChain f (b + 1) i = ((resolveChain f b j).1 + 1, (resolveChain f b j).2) := by
  obtain ⟨d, hd, hr, ht⟩ := (hop_eq_some_iff f i j).mp hh
  simp [resolveChain, FileImpl.getDirent, hd, hr, ht]

theorem resolveChain_reaches {Item : Type} (f : FileImpl Item) (k b i t : Nat)
    (hkb : k ≤ b) (hw : f.walk k i = some t) (ht : f.isTerminal t = true) :
    resolveChain f b i = (k, Except.ok (f.item t)) := by
  induction k generalizing b i with
  | zero =>
    simp [FileImpl.walk] at hw
    subst hw
    exact resolveChain_terminal f b i ht
  | succ k ih =>
    obtain ⟨b', rfl⟩ : ∃ b', b = b' + 1 := ⟨b - 1, by omega⟩
    simp only [FileImpl.walk] at hw
    cases hh : f.hop i with
    | none => rw [hh] at hw; cases hw
    | some j =>
      rw [hh] at hw
      rw [resolveChain_hop_succ f b' i j hh, ih b' j (by omega) hw]

theorem walk_forever_hop {Item : Type} (f : FileImpl Item) (i : Nat)
    (h : ∀ n, f.walk n i ≠ none) :
    ∃ j, f.hop i = some j ∧ ∀ n, f.walk n j ≠ none := by
  have h1 := h 1
  simp only [FileImpl.walk] at h1
  cases hh : f.hop i with
  | none => rw [hh] at h1; exact absurd rfl h1
  | some j =>
    refine ⟨j, rfl, ?_⟩
    intro n
    have hn := h (n + 1)
    simp only [FileImpl.walk, hh] at hn
    exact hn

theorem resolveChain_forever {Item : Type} (f : FileImpl Item) (b i : Nat)
    (h : ∀ n, f.walk n i ≠ none) :
    resolveChain f b i
      = (b, Except.error (ZimFileFormatError "redirect chain exceeds the hop bound")) := by
  induction b generalizing i with
  | zero =>
    obtain ⟨j, hh, -⟩ := walk_forever_hop f i h
    exact resolveChain_hop_zero f i j hh
  | succ b ih =>
    obtain ⟨j, hh, hj⟩ := walk_forever_hop f i h
    rw [resolveChain_hop_succ f b i j hh, ih j hj]

theorem cycle_walk_forever {Item : Type} (f : FileImpl Item) (k i : Nat)
    (hk : 0 < k) (hc : f.walk k i = some i) : ∀ n, f.walk n i ≠ none := by
  intro n
  induction n using Nat.strong_induction_on with
  | _ n ih =>
    by_cases hn : n ≤ k
    · obtain ⟨x, hx, -⟩ := walk_split f k n i i hc hn
      rw [hx]
      simp
    · have e : n = k + (n - k) := by omega
      rw [e, walk_add, hc]
      simp only [Option.bind]
      exact ih (n - k) (by omega)

theorem isRedirect_true_iff {Item : Type} (E : Entry Item) :
    E.isRedirect = Except.ok true ↔
      ∃ d, E.m_file.dirents[E.m_idx]? = some d ∧ d.isRedirect = true := by
  unfold Entry.isRedirect Entry.dirent FileImpl.getDirent
  cases hd : E.m_file.dirents[E.m_idx]? with
  | none => simp
  | some d => simp

theorem isRedirect_false_iff {Item : Type} (E : Entry Item) :
    E.isRedirect = Except.ok false ↔
      ∃ d, E.m_file.dirents[E.m_idx]? = some d ∧ d.isRedirect = false := by
  unfold Entry.isRedirect Entry.dirent FileImpl.getDirent
  cases hd : E.m_file.dirents[E.m_idx]? with
  | none => simp
  | some d => simp

theorem getElem_of_lt_entryCount {Item : Type} (f : FileImpl Item) (i : Nat)
    (h : i < f.entryCount) : ∃ d, f.dirents[i]? = some d :=
  ⟨f.dirents[i], List.getElem?_eq_getElem h⟩

/-! ## Entry -/

/-- C1: for every entry of an archive, `getItem(false)` fails with
`InvalidType` if the entry is a redirect, and otherwise succeeds with the item
associated with the entry's own Dirent; it raises `InvalidType` exactly when
the entry is a redirect. -/
theorem C1_getItem_without_follow {Item : Type} (E : Entry Item)
    (h : E.m_idx < E.m_file.entryCount) :
    (E.isRedirect = Except.ok true ∨ E.isRedirect = Except.ok false) ∧
    (E.isRedirect = Except.ok true →
      thrownClass (E.getItem false) = some ErrorClass.InvalidType) ∧
    (E.isRedirect = Except.ok false →
      E.getItem false = Except.ok (E.m_file.item E.m_idx)) ∧
    (thrownClass (E.getItem false) = some ErrorClass.InvalidType ↔
      E.isRedirect = Except.ok true) := by
  obtain ⟨d, hd⟩ := getElem_of_lt_entryCount E.m_file E.m_idx h
  cases hr : d.isRedirect <;>
    simp [Entry.getItem, Entry.isRedirect, Entry.dirent, FileImpl.getDirent, hd, hr,
      thrownClass, InvalidType]

/-- C1 at the worked example: `A` (index 0) is a redirect and `getItem(false)`
throws `InvalidType`; `C` (index 2) is not and `getItem(false)` is "hello". -/
theorem C1_getItem_without_follow_witness :
    (Entry.mk exampleChain 0).m_idx < (Entry.mk exampleChain 0).m_file.entryCount ∧
    thrownClass ((Entry.mk exampleChain 0).getItem false) = some ErrorClass.InvalidType ∧
    (Entry.mk exampleChain 2).getItem false = Except.ok "hello" :=
  ⟨by decide,
   (C1_getItem_without_follow (Entry.mk exampleChain 0) (by decide)).2.1 rfl,
   (C1_getItem_without_follow (Entry.mk exampleChain 2) (by decide)).2.2.1 rfl⟩

/-- C2: for a redirect entry whose chain reaches a non-redirect record `t`
after `k` one-hop redirects, `getItem(true)` and `getRedirect()` both succeed
with the item of `t`, and resolution makes exactly `k` hops. -/
theorem C2_follow_returns_terminal_item {Item : Type} (E : Entry Item) (k t : Nat)
    (hred : E.isRedirect = Except.ok true)
    (hw : E.m_file.walk k E.m_idx = some t)
    (ht : E.m_file.isTerminal t = true) :
    E.getItem true = Except.ok (E.m_file.item t) ∧
    E.getRedirect = Except.ok (E.m_file.item t) ∧
    E.getItem true = E.getRedirect ∧
    E.resolveHops = k := by
  obtain ⟨d, hd, hr⟩ := (isRedirect_true_iff E).mp hred
  have hk := walk_length_lt E.m_file k E.m_idx t hw ht
  have hres := resolveChain_reaches E.m_file k E.m_file.entryCount E.m_idx t
    (Nat.le_of_lt hk) hw ht
  have h1 : E.getItem true = Except.ok (E.m_file.item t) := by
    simp [Entry.getItem, Entry.dirent, FileImpl.getDirent, hd, hr, Entry.resolve, hres]
  have h2 : E.getRedirect = Except.ok (E.m_file.item t) := by
    simp [Entry.getRedirect, Entry.dirent, FileImpl.getDirent, hd, hr, Entry.resolve, hres]
  refine ⟨h1, h2, by rw [h1, h2], ?_⟩
  simp [Entry.resolveHops, Entry.resolve, hres]

/-- C2 at the worked example `A -> B -> C`: from `A`, two hops reach `C`, and
both `getItem(true)` and `getRedirect()` return "hello". -/
theorem C2_follow_returns_terminal_item_witness :
    (Entry.mk exampleChain 0).isRedirect = Except.ok true ∧
    exampleChain.walk 2 0 = some 2 ∧
    exampleChain.isTerminal 2 = true ∧
    (Entry.mk exampleChain 0).getItem true = Except.ok "hello" ∧
    (Entry.mk exampleChain 0).getRedirect = Except.ok "hello" :=
  ⟨rfl, rfl, rfl,
   (C2_follow_returns_terminal_item (Entry.mk exampleChain 0) 2 2 rfl rfl rfl).1,
   (C2_follow_returns_terminal_item (Entry.mk exampleChain 0) 2 2 rfl rfl rfl).2.1⟩

/-- C3: for an entry on a redirect cycle (following `k > 0` one-hop redirects
from it leads back to it), `getItem(true)` and `getRedirect()` terminate with a
`ZimFileFormatError`, after at most `entryCount()` hops. -/
theorem C3_cycle_fails_with_format_error {Item : Type} (E : Entry Item) (k : Nat)
    (hk : 0 < k) (hc : E.m_file.walk k E.m_idx = some E.m_idx) :
    thrownClass (E.getItem true) = some ErrorClass.ZimFileFormatError ∧
    thrownClass E.getRedirect = some ErrorClass.ZimFileFormatError ∧
    E.resolveHops ≤ E.m_file.entryCount := by
  have hall := cycle_walk_forever E.m_file k E.m_idx hk hc
  obtain ⟨j, hh, -⟩ := walk_forever_hop E.m_file E.m_idx hall
  obtain ⟨d, hd, hr, -⟩ := (hop_eq_some_iff E.m_file E.m_idx j).mp hh
  have hres := resolveChain_forever E.m_file E.m_file.entryCount E.m_idx hall
  refine ⟨?_, ?_, ?_⟩
  · simp [Entry.getItem, Entry.dirent, FileImpl.getDirent, hd, hr, Entry.resolve, hres,
      thrownClass, ZimFileFormatError]
  · simp [Entry.getRedirect, Entry.dirent, FileImpl.getDirent, hd, hr, Entry.resolve, hres,
      thrownClass, ZimFileFormatError]
  · simp [Entry.resolveHops, Entry.resolve, hres]

/-- C3 at a two-record archive whose records redirect to each other:
resolution from index 0 fails with a `ZimFileFormatError`. -/
theorem C3_cycle_fails_with_format_error_witness :
    0 < 2 ∧ exampleCycle.walk 2 0 = some 0 ∧
    thrownClass ((Entry.mk exampleCycle 0).getItem true)
      = some ErrorClass.ZimFileFormatError ∧
    thrownClass (Entry.mk exampleCycle 0).getRedirect
      = some ErrorClass.ZimFileFormatError ∧
    (Entry.mk exampleCycle 0).resolveHops ≤ exampleCycle.entryCount :=
  ⟨by decide, rfl,
   C3_cycle_fails_with_format_error (Entry.mk exampleCycle 0) 2 (by decide) rfl⟩

/-- C4: for every entry of an archive, `getRedirectEntryIndex()` returns, when
the entry is a redirect, the target index stored in its own Dirent, which is
the index one hop away and the index of `getRedirectEntry()`; when the entry is
not a redirect both calls fail with `InvalidType`; and when the chain reaches
its terminal record after `k` hops, the returned index is the terminal one
exactly when `k = 1`. -/
theorem C4_getRedirectEntryIndex_one_hop {Item : Type} (E : Entry Item)
    (h : E.m_idx < E.m_file.entryCount) :
    (E.isRedirect = Except.ok true →
      ∃ d, E.dirent = Except.ok d ∧
        E.getRedirectEntryIndex = Except.ok d.targetIndex ∧
        E.m_file.walk 1 E.m_idx = some d.targetIndex ∧
        ∃ E2, E.getRedirectEntry = Except.ok E2 ∧ E2.getIndex = d.targetIndex) ∧
    (E.isRedirect = Except.ok false →
      thrownClass E.getRedirectEntryIndex = some ErrorClass.InvalidType ∧
      thrownClass E.getRedirectEntry = some ErrorClass.InvalidType) ∧
    (∀ k t, E.isRedirect = Except.ok true → E.m_file.walk k E.m_idx = some t →
      E.m_file.isTerminal t = true →
      (E.getRedirectEntryIndex = Except.ok t ↔ k = 1)) := by
  obtain ⟨d, hd⟩ := getElem_of_lt_entryCount E.m_file E.m_idx h
  refine ⟨?_, ?_, ?_⟩
  · intro hred
    obtain ⟨d2, hd2, hr⟩ := (isRedirect_true_iff E).mp hred
    refine ⟨d2, ?_, ?_, ?_, ⟨E.m_file, d2.targetIndex⟩, ?_, rfl⟩
    · simp [Entry.dirent, FileImpl.getDirent, hd2]
    · simp [Entry.getRedirectEntryIndex, Entry.dirent, FileImpl.getDirent, hd2, hr]
    · simp [FileImpl.walk, FileImpl.hop, hd2, hr]
    · simp [Entry.getRedirectEntry, Entry.dirent, FileImpl.getDirent, hd2, hr]
  · intro hnr
    obtain ⟨d2, hd2, hr⟩ := (isRedirect_false_iff E).mp hnr
    constructor
    · simp [Entry.getRedirectEntryIndex, Entry.dirent, FileImpl.getDirent, hd2, hr,
        thrownClass, InvalidType]
    · simp [Entry.getRedirectEntry, Entry.dirent, FileImpl.getDirent, hd2, hr,
        thrownClass, InvalidType]
  · intro k t hred hw ht
    obtain ⟨d2, hd2, hr⟩ := (isRedirect_true_iff E).mp hred
    have hidx : E.getRedirectEntryIndex = Except.ok d2.targetIndex := by
      simp [Entry.getRedirectEntryIndex, Entry.dirent, FileImpl.getDirent, hd2, hr]
    have hhop : E.m_file.hop E.m_idx = some d2.targetIndex := by
      simp [FileImpl.hop, hd2, hr]
    cases k with
    | zero =>
      simp [FileImpl.walk] at hw
      subst hw
      obtain ⟨d3, hd3, hr3⟩ := (isTerminal_iff E.m_file E.m_idx).mp ht
      rw [hd2] at hd3
      cases hd3
      rw [hr] at hr3
      cases hr3
    | succ k =>
      simp only [FileImpl.walk, hhop] at hw
      rw [hidx]
      constructor
      · intro heq
        have htt : d2.targetIndex = t := Except.ok.inj heq
        rw [htt] at hw
        cases k with
        | zero => rfl
        | succ k =>
          rw [walk_terminal_none E.m_file t (k + 1) ht (by omega)] at hw
          cases hw
      · intro hk1
        have hk0 : k = 0 := by omega
        subst hk0
        simp [FileImpl.walk] at hw
        rw [hw]

/-- C4 at the worked example: from `A` (index 0) the call returns the index of
`B` (1), not that of the terminal record `C` (2); on `C` it throws
`InvalidType`. -/
theorem C4_getRedirectEntryIndex_one_hop_witness :
    (Entry.mk exampleChain 0).m_idx < (Entry.mk exampleChain 0).m_file.entryCount ∧
    (∃ d, (Entry.mk exampleChain 0).dirent = Except.ok d ∧
      (Entry.mk exampleChain 0).getRedirectEntryIndex = Except.ok d.targetIndex ∧
      exampleChain.walk 1 0 = some d.targetIndex ∧
      ∃ E2, (Entry.mk exampleChain 0).getRedirectEntry = Except.ok E2 ∧
        E2.getIndex = d.targetIndex) ∧
    (Entry.mk exampleChain 0).getRedirectEntryIndex = Except.ok 1 ∧
    ¬ ((Entry.mk exampleChain 0).getRedirectEntryIndex = Except.ok 2) :=
  ⟨by decide,
   (C4_getRedirectEntryIndex_one_hop (Entry.mk exampleChain 0) (by decide)).1 rfl,
   rfl,
   fun h2 => absurd
     (((C4_getRedirectEntryIndex_one_hop (Entry.mk exampleChain 0) (by decide)).2.2
       2 2 rfl rfl rfl).mp h2) (by decide)⟩

/-! ## The asynchronous error channel -/

/-- C5: for every captured failure `e`, `AsyncError(e).rethrow()` never returns
normally and throws exactly `e`; this holds whatever message the `AsyncError`
carries, and also after its message has been read. -/
theorem C5_rethrow_reproduces_original (e : CppException) :
    (AsyncError.ctor e).rethrow = Except.error e ∧
    (∀ r : Empty, (AsyncError.ctor e).rethrow ≠ Except.ok r) ∧
    (AsyncError.ctor e).whatCall.1 = AsyncError.ctor e ∧
    (AsyncError.ctor e).whatCall.1.rethrow = Except.error e ∧
    (∀ base : ZimError, (AsyncError.mk base e).rethrow = Except.error e) := by
  refine ⟨rfl, ?_, rfl, rfl, fun _ => rfl⟩
  intro r
  exact r.elim

/-- C6: the message of an `AsyncError` is fixed at construction from the
captured failure alone: for a standard exception it is "Asynchronous error: "
followed by the type name, a newline and the message of the failure; for any
other failure it is "Unknown asynchronous exception"; it is never empty, and
reading it gives the same text every time. -/
theorem C6_async_message :
    (∀ typeName what : String,
      (AsyncError.ctor (CppException.stdException typeName what)).what
        = "Asynchronous error: " ++ typeName ++ "\n" ++ what) ∧
    (∀ tag : Nat,
      (AsyncError.ctor (CppException.other tag)).what = "Unknown asynchronous exception") ∧
    (∀ e : CppException, (AsyncError.ctor e).what ≠ "") ∧
    (∀ e : CppException, (AsyncError.ctor e).what = buildErrorMessage e ∧
      (AsyncError.ctor e).whatCall.1.what = (AsyncError.ctor e).what) := by
  refine ⟨fun _ _ => rfl, fun _ => rfl, ?_, fun _ => ⟨rfl, rfl⟩⟩
  intro e
  exact buildErrorMessage_ne_empty e

/-- C7: the failure kinds are pairwise distinct; `InvalidEntry`,
`IncoherentImplementationError`, `AsyncError` and `CreatorStateError` are each a
`CreatorError` and are caught by a `CreatorError` handler, while
`ZimFileFormatError`, `InvalidType` and `EntryNotFound` are not; neither of
`CreatorStateError` and `AsyncError` is the other; and a `CreatorStateError`
carries the message "Creator is in error state.". -/
theorem C7_error_taxonomy :
    [ErrorClass.ZimFileFormatError, ErrorClass.InvalidType, ErrorClass.EntryNotFound,
      ErrorClass.CreatorError, ErrorClass.InvalidEntry,
      ErrorClass.IncoherentImplementationError, ErrorClass.AsyncError,
      ErrorClass.CreatorStateError].Nodup ∧
    (catches ErrorClass.CreatorError ErrorClass.InvalidEntry = true ∧
      catches ErrorClass.CreatorError ErrorClass.IncoherentImplementationError = true ∧
      catches ErrorClass.CreatorError ErrorClass.AsyncError = true ∧
      catches ErrorClass.CreatorError ErrorClass.CreatorStateError = true) ∧
    (catches ErrorClass.CreatorError ErrorClass.ZimFileFormatError = false ∧
      catches ErrorClass.CreatorError ErrorClass.InvalidType = false ∧
      catches ErrorClass.CreatorError ErrorClass.EntryNotFound = false) ∧
    (ErrorClass.CreatorStateError.isA ErrorClass.AsyncError = false ∧
      ErrorClass.AsyncError.isA ErrorClass.CreatorStateError = false) ∧
    (CreatorStateError.cls = ErrorClass.CreatorStateError ∧
      CreatorStateError.what = "Creator is in error state.") ∧
    (∀ m : String, (InvalidEntry m).cls = ErrorClass.InvalidEntry ∧
      (IncoherentImplementationError m).cls = ErrorClass.IncoherentImplementationError ∧
      (ZimFileFormatError m).cls = ErrorClass.ZimFileFormatError ∧
      (InvalidType m).cls = ErrorClass.InvalidType ∧
      (EntryNotFound m).cls = ErrorClass.EntryNotFound) ∧
    (∀ e : CppException, (AsyncError.ctor e).toCreatorError.cls = ErrorClass.AsyncError) := by
  refine ⟨by decide, by decide, by decide, by decide, ⟨rfl, rfl⟩, ?_, fun _ => rfl⟩
  intro m
  exact ⟨rfl, rfl, rfl, rfl, rfl⟩

/-! ## SuggestionItem -/

/-- C9: for every `SuggestionItem`, `hasSnippet()` is true exactly when the
snippet it was constructed with is non-empty; an item built from a title and a
path only has an empty snippet and `hasSnippet()` false. -/
theorem C9_hasSnippet_iff_nonempty (t p s : String) :
    ((SuggestionItem.ctor t p s).hasSnippet = true ↔ s ≠ "") ∧
    (SuggestionItem.ctor2 t p).getSnippet = "" ∧
    (SuggestionItem.ctor2 t p).hasSnippet = false := by
  refine ⟨?_, rfl, ?_⟩
  · have h := stdStringEmpty_iff s
    simp only [SuggestionItem.hasSnippet, SuggestionItem.ctor]
    constructor
    · intro hs he
      rw [h.mpr he] at hs
      simp at hs
    · intro hne
      cases hb : stdStringEmpty s with
      | false => rfl
      | true => exact absurd (h.mp hb) hne
  · have h := (stdStringEmpty_iff "").mpr rfl
    simp [SuggestionItem.hasSnippet, SuggestionItem.ctor2, SuggestionItem.ctor, h]

/-- C10: `SuggestionItem(t, p, s)` returns `t`, `p` and `s` from `getTitle`,
`getPath` and `getSnippet`, and any sequence of accessor calls leaves the item
unchanged and returns, call by call, what the same call returns on the freshly
constructed item. -/
theorem C10_accessors_pure (t p s : String) (calls : List SuggestionAccessor) :
    (SuggestionItem.ctor t p s).getTitle = t ∧
    (SuggestionItem.ctor t p s).getPath = p ∧
    (SuggestionItem.ctor t p s).getSnippet = s ∧
    ((SuggestionItem.ctor t p s).callAll calls).1 = SuggestionItem.ctor t p s ∧
    ((SuggestionItem.ctor t p s).callAll calls).2
      = calls.map (fun a => ((SuggestionItem.ctor t p s).call a).2) := by
  have h := callAll_const (SuggestionItem.ctor t p s) calls
  exact ⟨rfl, rfl, rfl, h.1, h.2⟩

/-! ## Result cursors -/

end zim
